import Mathlib

/-!
Verification of the PitchPulse live-scoring core.

The Python sources under `backend/app` are embedded shallowly:

* `app/services/scoring_service.py` — the score state machine.  The JSONB
  `score_data` dict that `initialize_score` creates always has the same ten
  keys, so it is embedded as the structure `ScoreData`; the `update_score`
  method, which treats the document as a plain key/value dict, is embedded
  separately over association lists with the values left abstract.
* The Python float `overs` only ever holds values of the form
  `over + balls/10` with `balls` between 0 and 5, written by
  `_calculate_new_overs` and by `initialize_score`; the embedding stores the
  exact number of tenths (`overs = 10*over + balls`), so `int(x)` becomes
  `/ 10` and `int((x*10)%10)` becomes `% 10`.
* `app/websockets/connection_manager.py` — the registry dict is embedded as a
  function from channel names to optional connection lists, and websockets as
  numeric ids; a `send_text` outcome is an input predicate.
* `app/core/redis_publisher.py` and `app/websockets/scoring_ws.py` — channel
  strings are embedded as character lists, with faithful models of the
  Python `str.split` and `int` used by the subscriber.
-/

namespace PitchPulse

/-- `MatchStatus` from `app/models/match.py`. -/
inductive MatchStatus where
  | scheduled
  | inProgress
  | completed
deriving DecidableEq

/-- One entry of `score_data["current_batsmen"]`: a dict with keys
`name`, `runs`, `balls`. -/
structure Batsman where
  name : String
  runs : Nat
  balls : Nat
deriving DecidableEq

/-- The `score_data["current_bowler"]` dict: keys `name`, `overs`, `runs`,
`wickets`.  `overs` is stored in tenths, like `ScoreData.overs`. -/
structure Bowler where
  name : String
  overs : Nat
  runs : Nat
  wickets : Nat
deriving DecidableEq

/-- The `score_data["last_ball"]` dict written by `process_ball_event`. -/
structure LastBall where
  runs : Nat
  is_wicket : Bool
  extra_type : Option String
deriving DecidableEq

/-- The `score_data` document created by `initialize_score`.  The Python
float `overs` is embedded as its exact count of tenths: the code only ever
stores `over + balls/10` with `balls` in 0..5, so the pair decoded by
`_calculate_new_overs` is `(overs / 10, overs % 10)`. -/
structure ScoreData where
  innings : Nat
  batting_team_id : Nat
  bowling_team_id : Nat
  score : Nat
  wickets : Nat
  overs : Nat
  current_batsmen : List Batsman
  current_bowler : Option Bowler
  last_ball : Option LastBall
  commentary : String
deriving DecidableEq

/-- The `ball_data` dict handed to `process_ball_event` (validated upstream by
the `BallEvent` schema: `extra_type` is `None` or one of the four extra
kinds). -/
structure BallData where
  runs : Nat
  is_wicket : Bool
  extra_type : Option String
  batsman_name : String
  bowler_name : String
  commentary : String
deriving DecidableEq

/-- The `Match` row fields the scoring service reads or writes. -/
structure Match where
  id : Nat
  tournament_id : Nat
  team1_id : Nat
  team2_id : Nat
  status : MatchStatus
  score_data : Option ScoreData
deriving DecidableEq

/-- `ScoringService._calculate_new_overs`, on the tenths encoding of the
overs float: `over = int(current_overs)` is `current_overs / 10`,
`balls = int((current_overs*10)%10)` is `current_overs % 10`, and the
recombination `over + balls/10` is `10*over + balls` tenths. -/
def calculate_new_overs (current_overs : Nat) (is_legal_ball : Bool) : Nat :=
  let over := current_overs / 10
  let balls := current_overs % 10
  if is_legal_ball then
    if balls + 1 == 6 then
      10 * (over + 1)
    else
      10 * over + (balls + 1)
  else
    current_overs

/-- The batsman-update loop of `process_ball_event` (lines 214-222): walk the
list, and on the first entry whose `name` equals the `batsman_name` of the
ball add the runs, add one ball when the delivery is legal, and stop.
Returns the updated list together with the `batsman_found` flag. -/
def update_batsman_list (ball : BallData) : List Batsman → List Batsman × Bool
  | [] => ([], false)
  | b :: rest =>
    if b.name == ball.batsman_name then
      ({ b with
          runs := b.runs + ball.runs,
          balls := if ball.extra_type.isNone then b.balls + 1 else b.balls } :: rest,
       true)
    else
      let r := update_batsman_list ball rest
      (b :: r.1, r.2)

/-- Batsman bookkeeping of `process_ball_event` (lines 214-237): update the
first entry matching the name, and if no entry matched append a fresh entry
with `runs` from the ball and `balls = 1` iff the delivery was legal. -/
def updated_batsmen (ball : BallData) (l : List Batsman) : List Batsman :=
  let r := update_batsman_list ball l
  if r.2 then
    r.1
  else
    r.1 ++ [{ name := ball.batsman_name,
              runs := ball.runs,
              balls := if ball.extra_type.isNone then 1 else 0 }]

/-- The fresh `current_bowler` dict built by `process_ball_event`
(lines 240-259 and 289-295): overs from the post-increment value on a legal
ball and `0.0` otherwise, runs from the ball, wickets `1` iff a wicket. -/
def new_bowler_entry (ball : BallData) (new_overs : Nat) : Bowler :=
  { name := ball.bowler_name,
    overs := if ball.extra_type.isNone then new_overs else 0,
    runs := ball.runs,
    wickets := if ball.is_wicket then 1 else 0 }

/-- Bowler bookkeeping of `process_ball_event` (lines 239-295): create a slot
when empty, accumulate when the same bowler continues (overs only on a legal
ball), and replace the slot wholesale when a different bowler is named. -/
def updated_bowler (ball : BallData) (new_overs : Nat) :
    Option Bowler → Bowler
  | none => new_bowler_entry ball new_overs
  | some bw =>
    if bw.name == ball.bowler_name then
      { bw with
          overs := if ball.extra_type.isNone then new_overs else bw.overs,
          runs := bw.runs + ball.runs,
          wickets := if ball.is_wicket then bw.wickets + 1 else bw.wickets }
    else
      new_bowler_entry ball new_overs

/-- The mutation of `score_data` performed by `process_ball_event`
(lines 183-305), as a pure function.  Statement order in the source: runs
are added first; a wicket bumps `wickets` and filters every entry named
`batsman_name` out of `current_batsmen`; the new overs value is computed
from the overs read before any mutation, with the ball legal iff
`extra_type` is `None`; then batsman bookkeeping runs over the post-wicket
list, bowler bookkeeping over the pre-existing slot, and `last_ball` and
`commentary` are overwritten. -/
def apply_ball (sd : ScoreData) (ball : BallData) : ScoreData :=
  let batsmen_after_wicket :=
    if ball.is_wicket then
      sd.current_batsmen.filter (fun b => b.name != ball.batsman_name)
    else
      sd.current_batsmen
  let new_overs := calculate_new_overs sd.overs ball.extra_type.isNone
  { sd with
    score := sd.score + ball.runs,
    wickets := if ball.is_wicket then sd.wickets + 1 else sd.wickets,
    overs := new_overs,
    current_batsmen := updated_batsmen ball batsmen_after_wicket,
    current_bowler := some (updated_bowler ball new_overs sd.current_bowler),
    last_ball := some { runs := ball.runs,
                        is_wicket := ball.is_wicket,
                        extra_type := ball.extra_type },
    commentary := ball.commentary }

/-- `ScoringService.process_ball_event` (lines 168-317) on a fetched match:
when `score_data` is `None` the method prints "Score not initialized!" and
returns `None` without touching the row; otherwise it applies the ball.
The source consults `status` nowhere on this path. -/
def process_ball_event (m : Match) (ball : BallData) : Option Match :=
  match m.score_data with
  | none => none
  | some sd => some { m with score_data := some (apply_ball sd ball) }

/-- The fresh score dict built by `initialize_score` (lines 74-85). -/
def init_score_data (batting_team_id bowling_team_id : Nat) : ScoreData :=
  { innings := 1,
    batting_team_id := batting_team_id,
    bowling_team_id := bowling_team_id,
    score := 0,
    wickets := 0,
    overs := 0,
    current_batsmen := [],
    current_bowler := none,
    last_ball := none,
    commentary := "Match is about to start..." }

/-- `ScoringService.initialize_score` (lines 61-105) on a fetched match: it
unconditionally installs a fresh document and sets the status to
In Progress, with no check of the current status or of an existing
document. -/
def initialize_score (m : Match) (batting_team_id bowling_team_id : Nat) :
    Match :=
  { m with
    score_data := some (init_score_data batting_team_id bowling_team_id),
    status := MatchStatus.inProgress }

/-- `ScoringService.complete_match` (lines 331-354) on a fetched match: sets
the status to Completed unconditionally. -/
def complete_match (m : Match) : Match :=
  { m with status := MatchStatus.completed }

/-- A sequence of `process_ball_event` calls against the same match,
stopping at the first failure. -/
def run_balls (m : Match) (events : List BallData) : Option Match :=
  events.foldl (fun acc e => acc.bind (fun mm => process_ball_event mm e))
    (some m)

/-! Section: the `update_score` method over the raw score dict.

`update_score` (lines 107-140) treats `score_data` as a plain dict: for each
key of `updates` that is already present it overwrites the value, and it
skips (with a warning) every key that is not.  It never reads the values, so
they stay abstract here.  A Python dict is embedded as an association list
in insertion order with unique keys; overwriting keeps the position of the
key, which `dict_set` mirrors by mapping over the list. -/

/-- Python `key in d`. -/
def dict_contains {V : Type} (d : List (String × V)) (k : String) : Bool :=
  d.any (fun p => p.1 == k)

/-- Python `d[k] = v` on a key already present: overwrite in place. -/
def dict_set {V : Type} (d : List (String × V)) (k : String) (v : V) :
    List (String × V) :=
  d.map (fun p => if p.1 == k then (k, v) else p)

/-- Python `d[k]` as a lookup that may fail: the first binding of `k`. -/
def dict_lookup {V : Type} (d : List (String × V)) (k : String) : Option V :=
  match d.find? (fun p => p.1 == k) with
  | none => none
  | some p => some p.2

/-- The update loop of `update_score` (lines 120-124). -/
def update_score_doc {V : Type} (doc updates : List (String × V)) :
    List (String × V) :=
  updates.foldl
    (fun acc kv => if dict_contains acc kv.1 then dict_set acc kv.1 kv.2 else acc)
    doc

/-- A match row whose `score_data` is kept as the raw dict, for the claims
about `update_score`. -/
structure MatchRow (V : Type) where
  id : Nat
  tournament_id : Nat
  team1_id : Nat
  team2_id : Nat
  status : MatchStatus
  score_data : Option (List (String × V))

/-- `ScoringService.update_score` (lines 107-140) on a fetched match: `None`
when the score dict is missing ("Score not initialized!"), otherwise the
key-filtered overwrite; no other column of the row is written. -/
def update_score {V : Type} (m : MatchRow V) (updates : List (String × V)) :
    Option (MatchRow V) :=
  match m.score_data with
  | none => none
  | some doc => some { m with score_data := some (update_score_doc doc updates) }

/-! Section: the connection registry.

`ConnectionManager` of `app/websockets/connection_manager.py`.  The
`active_connections` dict is embedded as a function from channel names to
an optional list of connections, websockets as numeric ids.  Whether
`send_text` raises for a given connection is an input predicate `fails`;
`broadcast_to_match` returns the list of connections the payload reached
(the source logs its length as `successful_sends`) next to the updated
registry. -/

/-- `active_connections : Dict[str, List[WebSocket]]`. -/
def Registry : Type := String → Option (List Nat)

/-- The channel string all three `ConnectionManager` methods build:
the f-string interpolation of `match_id` after "match: " (lines 25, 48
and 92). -/
def manager_channel (match_id : Nat) : String :=
  "match: " ++ toString match_id

/-- `ConnectionManager.connect` (lines 14-38): create the channel entry when
absent, then append the websocket. -/
def connect (reg : Registry) (websocket : Nat) (match_id : Nat) : Registry :=
  let channel := manager_channel match_id
  let cur := (reg channel).getD []
  fun s => if s = channel then some (cur ++ [websocket]) else reg s

/-- `ConnectionManager.disconnect` (lines 40-68): when the channel exists,
remove the websocket if present (Python `list.remove`: first occurrence),
then delete the channel entry once the list is empty; when the channel does
not exist, log and do nothing. -/
def disconnect (reg : Registry) (websocket : Nat) (match_id : Nat) :
    Registry :=
  let channel := manager_channel match_id
  match reg channel with
  | none => reg
  | some conns =>
    let conns' := if websocket ∈ conns then conns.erase websocket else conns
    if conns'.length = 0 then
      fun s => if s = channel then none else reg s
    else
      fun s => if s = channel then some conns' else reg s

/-- `ConnectionManager.broadcast_to_match` (lines 84-127): on a missing
channel, return at once; otherwise iterate over a copy of the connection
list, sending to each (a failure is logged and the connection is collected
in `failed_connections`), and afterwards `disconnect` every failed
connection.  The first component lists the connections whose send
succeeded, in order. -/
def broadcast_to_match (fails : Nat → Bool) (reg : Registry)
    (match_id : Nat) : List Nat × Registry :=
  let channel := manager_channel match_id
  match reg channel with
  | none => ([], reg)
  | some conns =>
    let delivered := conns.filter (fun ws => !(fails ws))
    let failed := conns.filter (fun ws => fails ws)
    (delivered, failed.foldl (fun r ws => disconnect r ws match_id) reg)

/-! Section: channel naming and parsing.

The publisher (`redis_publisher.py` line 23), the registry
(`connection_manager.py` lines 25, 48, 92) and the subscriber pattern
(`scoring_ws.py` line 120) all spell the topic of match `id` as the
f-string interpolation of the id after "match: ", and the subscriber
recovers the id with `int(channel.split(": ")[1])` (line 134).  Strings are
embedded as character lists so that `split` and `int` can be modelled
faithfully. -/

/-- Whether `pre` is an initial run of `l`: the separator test of the
`str.split` scan. -/
def starts_with : List Char → List Char → Bool
  | [], _ => true
  | _ :: _, [] => false
  | p :: ps, c :: cs => p == c && starts_with ps cs

/-- The scan of Python `str.split(sep)` for separator `c0 :: sep_tail`: cut
at every occurrence of the separator, left to right, non-overlapping; `acc`
holds the characters of the current piece in reverse.  The scan consumes at
least one character per step, so the fuel `py_split` passes (the length of
the string) is never exhausted; the fuel only makes the recursion
structural. -/
def split_go (c0 : Char) (sep_tail : List Char) :
    Nat → List Char → List Char → List (List Char)
  | _, [], acc => [acc.reverse]
  | 0, rest, acc => [acc.reverse ++ rest]
  | fuel + 1, c :: rest, acc =>
    if c == c0 && starts_with sep_tail rest then
      acc.reverse :: split_go c0 sep_tail fuel (rest.drop sep_tail.length) []
    else
      split_go c0 sep_tail fuel rest (c :: acc)

/-- Python `str.split(sep)` with a non-empty separator, over character
lists (`split` raises on an empty separator; that case never occurs
here). -/
def py_split (sep s : List Char) : List (List Char) :=
  match sep with
  | [] => [s]
  | c0 :: sep_tail => split_go c0 sep_tail s.length s []

/-- The decimal digit characters. -/
def digit_char (d : Nat) : Char :=
  match d with
  | 0 => '0'
  | 1 => '1'
  | 2 => '2'
  | 3 => '3'
  | 4 => '4'
  | 5 => '5'
  | 6 => '6'
  | 7 => '7'
  | 8 => '8'
  | _ => '9'

/-- Digit peeling with fuel: each recursive call divides `n` by ten, so any
fuel at least `n` suffices and the fuel only makes the recursion
structural. -/
def nat_repr_go : Nat → Nat → List Char
  | 0, n => [digit_char n]
  | fuel + 1, n =>
    if n < 10 then [digit_char n]
    else nat_repr_go fuel (n / 10) ++ [digit_char (n % 10)]

/-- The decimal representation a Python f-string interpolates for a
non-negative int. -/
def nat_repr (n : Nat) : List Char :=
  nat_repr_go n n

/-- Code points 48-57 are the digit characters. -/
def is_digit_char (c : Char) : Bool :=
  48 ≤ c.toNat && c.toNat ≤ 57

/-- The value of a digit character. -/
def char_digit_val (c : Char) : Nat :=
  c.toNat - 48

/-- Python `int(s)` on the strings that reach it here: the decimal value on
a non-empty all-digit string, failure otherwise (`int` raises, and the
subscriber logs and skips the message). -/
def py_int (s : List Char) : Option Nat :=
  if s ≠ [] ∧ s.all is_digit_char then
    some (s.foldl (fun acc c => 10 * acc + char_digit_val c) 0)
  else
    none

/-- The channel `RedisPublisher.publish_match_update` publishes on
(`redis_publisher.py` line 23). -/
def publisher_channel (match_id : Nat) : List Char :=
  "match: ".toList ++ nat_repr match_id

/-- The channel key the connection registry files connections under, as
characters (`connection_manager.py` line 25, the same f-string). -/
def registry_channel_chars (match_id : Nat) : List Char :=
  "match: ".toList ++ nat_repr match_id

/-- The id extraction of `redis_subscriber` (`scoring_ws.py` line 134):
`int(channel.split(": ")[1])`, with both failure modes (no piece at index
1, or `int` raising) mapped to `none`. -/
def parse_match_id (channel : List Char) : Option Nat :=
  match (py_split ": ".toList channel).drop 1 with
  | [] => none
  | s :: _ => py_int s

/-! Section: facts about the over counter. -/

/-- Projecting overs out of a ball application gives exactly the
`_calculate_new_overs` value. -/
lemma apply_ball_overs (sd : ScoreData) (ball : BallData) :
    (apply_ball sd ball).overs
      = calculate_new_overs sd.overs ball.extra_type.isNone := rfl

/-- On an illegal delivery `_calculate_new_overs` returns its input. -/
lemma calculate_new_overs_illegal (t : Nat) :
    calculate_new_overs t false = t := rfl

/-- On a legal delivery `_calculate_new_overs` advances the decoded pair by
one ball, rolling the over at six. -/
lemma calculate_new_overs_legal (t : Nat) :
    calculate_new_overs t true
      = if t % 10 + 1 = 6 then 10 * (t / 10 + 1)
        else 10 * (t / 10) + (t % 10 + 1) := by
  simp [calculate_new_overs]

/-- Folding any event list over `apply_ball` moves `overs` by the number of
legal deliveries, six balls to the over, whenever the start state decodes
to a ball count of at most five. -/
lemma overs_formula (events : List BallData) :
    ∀ sd : ScoreData, sd.overs % 10 ≤ 5 →
      (events.foldl apply_ball sd).overs
        = 10 * (sd.overs / 10
              + (sd.overs % 10 + events.countP (fun b => b.extra_type.isNone)) / 6)
          + (sd.overs % 10 + events.countP (fun b => b.extra_type.isNone)) % 6 := by
  induction events with
  | nil =>
    intro sd h
    simp
    omega
  | cons e es ih =>
    intro sd h
    rw [List.foldl_cons, List.countP_cons]
    cases hleg : e.extra_type.isNone with
    | false =>
      have hov : (apply_ball sd e).overs = sd.overs := by
        rw [apply_ball_overs, hleg, calculate_new_overs_illegal]
      have := ih (apply_ball sd e) (by rw [hov]; exact h)
      rw [this, hov]
      simp [hleg]
    | true =>
      have hov : (apply_ball sd e).overs
          = if sd.overs % 10 + 1 = 6 then 10 * (sd.overs / 10 + 1)
            else 10 * (sd.overs / 10) + (sd.overs % 10 + 1) := by
        rw [apply_ball_overs, hleg, calculate_new_overs_legal]
      have hle : (apply_ball sd e).overs % 10 ≤ 5 := by
        rw [hov]
        split <;> omega
      have := ih (apply_ball sd e) hle
      rw [this, hov]
      simp only [hleg, if_pos]
      split <;> omega

/-- `run_balls` never fails on a match whose document is present, and its
effect on the document is the fold of `apply_ball`. -/
lemma run_balls_eq (events : List BallData) :
    ∀ (m : Match) (sd : ScoreData), m.score_data = some sd →
      run_balls m events
        = some { m with score_data := some (events.foldl apply_ball sd) } := by
  induction events with
  | nil =>
    intro m sd h
    cases m
    cases h
    rfl
  | cons e es ih =>
    intro m sd h
    have hstep : process_ball_event m e
        = some { m with score_data := some (apply_ball sd e) } := by
      unfold process_ball_event
      rw [h]
    show List.foldl _ (Option.bind (some m) (fun mm => process_ball_event mm e)) es = _
    rw [Option.some_bind, hstep]
    exact ih _ _ rfl

/-- C1 (confirmed).  Over a freshly initialized score document,
`process_ball_event` never fails and mutates the document by `apply_ball`;
after any event sequence, decoding `overs` the way `_calculate_new_overs`
does gives over number `L / 6` and ball-in-over `L % 6` where `L` counts
the deliveries with no extra, so ball-in-over stays in `[0,5]` and the over
number increments exactly once per six legal deliveries; and a ball with an
extra never changes the overs value, hence neither component. -/
theorem c1_over_progression (m0 : Match) (bt bw : Nat)
    (events : List BallData) :
    (run_balls (initialize_score m0 bt bw) events
        = some { initialize_score m0 bt bw with
                 score_data := some (events.foldl apply_ball (init_score_data bt bw)) })
    ∧ (events.foldl apply_ball (init_score_data bt bw)).overs / 10
        = events.countP (fun b => b.extra_type.isNone) / 6
    ∧ (events.foldl apply_ball (init_score_data bt bw)).overs % 10
        = events.countP (fun b => b.extra_type.isNone) % 6
    ∧ (events.foldl apply_ball (init_score_data bt bw)).overs % 10 ≤ 5
    ∧ (∀ (sd : ScoreData) (ball : BallData), ball.extra_type ≠ none →
        (apply_ball sd ball).overs = sd.overs) := by
  have h0 : (init_score_data bt bw).overs % 10 ≤ 5 := by
    simp [init_score_data]
  have hf := overs_formula events (init_score_data bt bw) h0
  have hz : (init_score_data bt bw).overs = 0 := rfl
  rw [hz] at hf
  refine ⟨run_balls_eq events _ _ rfl, ?_, ?_, ?_, ?_⟩
  · rw [hf]; omega
  · rw [hf]; omega
  · rw [hf]; omega
  · intro sd ball hx
    have : ball.extra_type.isNone = false := by
      cases hb : ball.extra_type
      · exact absurd hb hx
      · rfl
    rw [apply_ball_overs, this, calculate_new_overs_illegal]

/-- C4 (confirmed).  Starting from a freshly initialized document, six
deliveries with no runs, no wicket, no extra and the same bowler "X" (the
batsman names and commentary arbitrary) leave `overs = 10` tenths, which
decodes to the pair `(1, 0)`, and the bowler slot at overs `10` tenths,
the pair `(1, 0)`, with no runs conceded and no wickets. -/
theorem c4_six_legal_deliveries (bt bw : Nat)
    (n1 n2 n3 n4 n5 n6 k1 k2 k3 k4 k5 k6 : String) :
    (([⟨0, false, none, n1, "X", k1⟩, ⟨0, false, none, n2, "X", k2⟩,
       ⟨0, false, none, n3, "X", k3⟩, ⟨0, false, none, n4, "X", k4⟩,
       ⟨0, false, none, n5, "X", k5⟩, ⟨0, false, none, n6, "X", k6⟩]
        : List BallData).foldl apply_ball (init_score_data bt bw)).overs = 10
    ∧ (([⟨0, false, none, n1, "X", k1⟩, ⟨0, false, none, n2, "X", k2⟩,
       ⟨0, false, none, n3, "X", k3⟩, ⟨0, false, none, n4, "X", k4⟩,
       ⟨0, false, none, n5, "X", k5⟩, ⟨0, false, none, n6, "X", k6⟩]
        : List BallData).foldl apply_ball (init_score_data bt bw)).current_bowler
        = some { name := "X", overs := 10, runs := 0, wickets := 0 } := by
  constructor <;>
  simp [List.foldl, apply_ball, updated_bowler, new_bowler_entry,
    calculate_new_overs, init_score_data]

/-! Section: facts about the batsman bookkeeping. -/

/-- When no entry matches the name, the update loop leaves the list alone
and reports `batsman_found = False`. -/
lemma update_batsman_list_not_found (ball : BallData) :
    ∀ l : List Batsman, (∀ b ∈ l, (b.name == ball.batsman_name) = false) →
      update_batsman_list ball l = (l, false) := by
  intro l
  induction l with
  | nil => intro h; rfl
  | cons b rest ih =>
    intro h
    have hb := h b (List.mem_cons_self b rest)
    have hrest := ih (fun x hx => h x (List.mem_cons_of_mem b hx))
    simp [update_batsman_list, hb, hrest]

/-- When no entry matches the name, the bookkeeping appends a fresh
entry. -/
lemma updated_batsmen_not_found (ball : BallData) (l : List Batsman)
    (h : ∀ b ∈ l, (b.name == ball.batsman_name) = false) :
    updated_batsmen ball l
      = l ++ [⟨ball.batsman_name, ball.runs,
              if ball.extra_type.isNone then 1 else 0⟩] := by
  unfold updated_batsmen
  rw [update_batsman_list_not_found ball l h]
  simp

/-- Every survivor of the wicket filter has a name other than the
dismissed batsman. -/
lemma filter_name_ne (nm : String) (l : List Batsman) :
    ∀ b ∈ l.filter (fun b => b.name != nm), (b.name == nm) = false := by
  intro b hb
  have := List.of_mem_filter hb
  simpa using this

/-- Concrete inputs for the wicket claim: a document holding batsmen "A"
and "B", and a legal wicket ball dismissing "A". -/
def c2_doc : ScoreData :=
  { innings := 1, batting_team_id := 1, bowling_team_id := 2, score := 13,
    wickets := 0, overs := 7, current_batsmen := [⟨"A", 10, 5⟩, ⟨"B", 3, 2⟩],
    current_bowler := none, last_ball := none, commentary := "play" }

def c2_match : Match := ⟨1, 1, 1, 2, MatchStatus.inProgress, some c2_doc⟩

def c2_ball : BallData := ⟨0, true, none, "A", "X", "caught"⟩

/-- C2 (counterexample).  On a document with batsmen `A(10,5), B(3,2)`, a
legal wicket ball naming "A" does not leave `[B(3,2)]`: after the removal,
the batsman-bookkeeping step of `process_ball_event` no longer finds "A"
and appends a fresh entry, so the final list is `[B(3,2), A(0,1)]`. -/
theorem c2_wicket_removal_cex :
    process_ball_event c2_match c2_ball
      = some { c2_match with score_data := some (apply_ball c2_doc c2_ball) }
    ∧ (apply_ball c2_doc c2_ball).current_batsmen
        = [⟨"B", 3, 2⟩, ⟨"A", 0, 1⟩]
    ∧ (apply_ball c2_doc c2_ball).current_batsmen ≠ [⟨"B", 3, 2⟩] := by
  decide

/-- C2 (amended).  On a wicket ball, `process_ball_event` bumps `wickets`,
removes every entry named `batsman_name` from `activeBatsmen` keeping the
other entries unchanged and in order, and then the batsman-bookkeeping step
re-appends a fresh entry for the dismissed batsman at the end, with runs
from the event and one ball faced iff the delivery was legal. -/
theorem c2_wicket_removal_amended (m : Match) (sd : ScoreData)
    (ball : BallData) (hsd : m.score_data = some sd)
    (hw : ball.is_wicket = true) :
    process_ball_event m ball
      = some { m with score_data := some (apply_ball sd ball) }
    ∧ (apply_ball sd ball).wickets = sd.wickets + 1
    ∧ (apply_ball sd ball).current_batsmen
        = sd.current_batsmen.filter (fun b => b.name != ball.batsman_name)
          ++ [⟨ball.batsman_name, ball.runs,
              if ball.extra_type.isNone then 1 else 0⟩] := by
  refine ⟨?_, ?_, ?_⟩
  · unfold process_ball_event
    rw [hsd]
  · simp [apply_ball, hw]
  · have hcb : (apply_ball sd ball).current_batsmen
        = updated_batsmen ball
            (sd.current_batsmen.filter (fun b => b.name != ball.batsman_name)) := by
      simp [apply_ball, hw]
    rw [hcb,
      updated_batsmen_not_found ball _ (filter_name_ne ball.batsman_name _)]

/-- C2 (witness): the amended statement at the concrete wicket input. -/
theorem c2_wicket_removal_amended_witness :
    process_ball_event c2_match c2_ball
      = some { c2_match with score_data := some (apply_ball c2_doc c2_ball) }
    ∧ (apply_ball c2_doc c2_ball).wickets = c2_doc.wickets + 1
    ∧ (apply_ball c2_doc c2_ball).current_batsmen
        = c2_doc.current_batsmen.filter
            (fun b => b.name != c2_ball.batsman_name)
          ++ [⟨c2_ball.batsman_name, c2_ball.runs,
              if c2_ball.extra_type.isNone then 1 else 0⟩] :=
  c2_wicket_removal_amended c2_match c2_doc c2_ball rfl rfl

/-! Section: the status guards the service does not have. -/

/-- Concrete inputs for the status-guard claims: a completed and a
scheduled match, and a legal four. -/
def c3_doc : ScoreData :=
  { innings := 1, batting_team_id := 1, bowling_team_id := 2, score := 57,
    wickets := 3, overs := 42, current_batsmen := [⟨"A", 20, 18⟩],
    current_bowler := some ⟨"X", 12, 9, 1⟩, last_ball := none,
    commentary := "drinks" }

def c3_completed : Match := ⟨5, 1, 1, 2, MatchStatus.completed, some c3_doc⟩

def c3_scheduled : Match := ⟨6, 1, 1, 2, MatchStatus.scheduled, none⟩

def c3_ball : BallData := ⟨4, false, none, "A", "X", "four"⟩

/-- C3 (code_bug evidence).  `process_ball_event` checks only that
`score_data` exists, never the status: on a Completed match with an
initialized document it happily applies the ball and changes the document
(no InvalidTransition failure), while on a Scheduled match without a
document it does fail and leaves the row alone. -/
theorem c3_no_status_guard :
    c3_completed.status = MatchStatus.completed
    ∧ process_ball_event c3_completed c3_ball
        = some { c3_completed with score_data := some (apply_ball c3_doc c3_ball) }
    ∧ (apply_ball c3_doc c3_ball).score = 61
    ∧ some (apply_ball c3_doc c3_ball) ≠ c3_completed.score_data
    ∧ c3_scheduled.status = MatchStatus.scheduled
    ∧ process_ball_event c3_scheduled c3_ball = none := by
  decide

/-- Concrete inputs for the re-initialization claim: an in-progress match
with 57 runs accumulated. -/
def c7_doc : ScoreData :=
  { innings := 1, batting_team_id := 1, bowling_team_id := 2, score := 57,
    wickets := 3, overs := 42, current_batsmen := [⟨"A", 20, 18⟩],
    current_bowler := some ⟨"X", 12, 9, 1⟩, last_ball := none,
    commentary := "drinks" }

def c7_inprogress : Match := ⟨7, 1, 1, 2, MatchStatus.inProgress, some c7_doc⟩

def c7_scheduled : Match := ⟨8, 1, 1, 2, MatchStatus.scheduled, none⟩

/-- C7 (code_bug evidence).  On a Scheduled match `initialize_score` does
create the zeroed document and move to In Progress, as the claim wants;
but called again on an In Progress match with 57 runs on the board it is
not rejected: it overwrites the document with a fresh zeroed one. -/
theorem c7_reinitialize_overwrites :
    initialize_score c7_scheduled 1 2
        = { c7_scheduled with score_data := some (init_score_data 1 2),
                              status := MatchStatus.inProgress }
    ∧ (init_score_data 1 2).score = 0
    ∧ (init_score_data 1 2).wickets = 0
    ∧ (init_score_data 1 2).current_batsmen = []
    ∧ c7_inprogress.status = MatchStatus.inProgress
    ∧ c7_inprogress.score_data.map ScoreData.score = some 57
    ∧ initialize_score c7_inprogress 1 2
        = { c7_inprogress with score_data := some (init_score_data 1 2) }
    ∧ (initialize_score c7_inprogress 1 2).score_data.map ScoreData.score
        = some 0 := by
  decide

/-! Section: the wickets counter. -/

/-- Concrete input for the wickets-cap claim: a document already at ten
wickets, and one more legal wicket ball. -/
def c8_doc : ScoreData := { init_score_data 1 2 with wickets := 10 }

def c8_ball : BallData := ⟨0, true, none, "A", "X", "out"⟩

/-- C8 (counterexample).  `process_ball_event` increments `wickets` with no
cap: at ten wickets one more wicket ball produces eleven. -/
theorem c8_wickets_cap_cex :
    c8_doc.wickets = 10
    ∧ (apply_ball c8_doc c8_ball).wickets = 11
    ∧ ¬ (apply_ball c8_doc c8_ball).wickets ≤ 10 := by
  decide

/-- C8 (amended).  `initialize_score` zeroes `wickets`, and every ball
application adds exactly one iff the ball is a wicket — with no upper
bound, so `wickets ≤ 10` holds only while the caller feeds at most ten
wicket events. -/
theorem c8_wickets_amended (bt bw : Nat) (sd : ScoreData) (ball : BallData) :
    (init_score_data bt bw).wickets = 0
    ∧ (apply_ball sd ball).wickets
        = sd.wickets + (if ball.is_wicket then 1 else 0) := by
  constructor
  · rfl
  · cases hw : ball.is_wicket <;> simp [apply_ball, hw]

/-! Section: the wide-ball frame claim. -/

/-- Skipping a non-matching head commutes with the batsman bookkeeping. -/
lemma updated_batsmen_cons_skip (ball : BallData) (b : Batsman)
    (rest : List Batsman) (hname : (b.name == ball.batsman_name) = false) :
    updated_batsmen ball (b :: rest) = b :: updated_batsmen ball rest := by
  unfold updated_batsmen
  simp only [update_batsman_list, hname, Bool.false_eq_true, if_false]
  by_cases h : (update_batsman_list ball rest).2 <;> simp [h]

/-- On an illegal delivery the bookkeeping leaves the balls-faced count of
the named batsman unchanged, whenever the batsman has an entry. -/
lemma find_batsman_updated_illegal (ball : BallData)
    (hleg : ball.extra_type.isNone = false) :
    ∀ l : List Batsman,
      l.any (fun b => b.name == ball.batsman_name) = true →
      ((updated_batsmen ball l).find?
          (fun b => b.name == ball.batsman_name)).map Batsman.balls
        = (l.find? (fun b => b.name == ball.batsman_name)).map Batsman.balls := by
  intro l
  induction l with
  | nil => intro h; simp at h
  | cons b rest ih =>
    intro h
    by_cases hb : (b.name == ball.batsman_name) = true
    · have hupd : updated_batsmen ball (b :: rest)
          = { b with runs := b.runs + ball.runs,
                     balls := if ball.extra_type.isNone then b.balls + 1
                              else b.balls } :: rest := by
        unfold updated_batsmen
        simp [update_batsman_list, hb]
      rw [hupd]
      simp [List.find?, hb, hleg]
    · have hb' : (b.name == ball.batsman_name) = false := by
        simpa using hb
      rw [updated_batsmen_cons_skip ball b rest hb']
      simp only [List.find?, hb']
      exact ih (by simpa [List.any_cons, hb'] using h)

/-- Concrete inputs for the wide-ball claim: batsman "A" with three balls
faced, a wide with a run-out (`is_wicket` true), and a plain wide. -/
def c9_doc : ScoreData :=
  { init_score_data 1 2 with score := 7, current_batsmen := [⟨"A", 7, 3⟩] }

def c9_ball : BallData := ⟨1, true, some "wide", "A", "X", "run out"⟩

def c9_wide_ball : BallData := ⟨1, false, some "wide", "A", "X", "wide"⟩

/-- C9 (counterexample).  The claim quantifies over every ball event with
`extraType = wide` and `runs = 1`; taken with `isWicket = true` (a run-out
off a wide, which the `BallEvent` schema admits), the named batsman is
removed and re-appended with zero balls faced, so the balls-faced count
changes from 3 to 0. -/
theorem c9_wide_frame_cex :
    c9_ball.extra_type = some "wide"
    ∧ c9_ball.runs = 1
    ∧ (c9_doc.current_batsmen.find?
          (fun b => b.name == c9_ball.batsman_name)).map Batsman.balls
        = some 3
    ∧ ((apply_ball c9_doc c9_ball).current_batsmen.find?
          (fun b => b.name == c9_ball.batsman_name)).map Batsman.balls
        = some 0
    ∧ ¬ ((apply_ball c9_doc c9_ball).current_batsmen.find?
          (fun b => b.name == c9_ball.batsman_name)).map Batsman.balls
        = (c9_doc.current_batsmen.find?
          (fun b => b.name == c9_ball.batsman_name)).map Batsman.balls := by
  decide

/-- C9 (amended).  For a wide with one run and no wicket, against a
document in which the named batsman has an entry: the overs value is
unchanged, the total runs grow by one, and the balls-faced count of that
batsman is unchanged. -/
theorem c9_wide_frame (sd : ScoreData) (ball : BallData)
    (hx : ball.extra_type = some "wide") (hr : ball.runs = 1)
    (hw : ball.is_wicket = false)
    (hb : sd.current_batsmen.any (fun b => b.name == ball.batsman_name)
            = true) :
    (apply_ball sd ball).overs = sd.overs
    ∧ (apply_ball sd ball).score = sd.score + 1
    ∧ ((apply_ball sd ball).current_batsmen.find?
          (fun b => b.name == ball.batsman_name)).map Batsman.balls
        = (sd.current_batsmen.find?
          (fun b => b.name == ball.batsman_name)).map Batsman.balls := by
  have hleg : ball.extra_type.isNone = false := by
    rw [hx]
    rfl
  refine ⟨?_, ?_, ?_⟩
  · rw [apply_ball_overs, hleg, calculate_new_overs_illegal]
  · show sd.score + ball.runs = sd.score + 1
    rw [hr]
  · have hcb : (apply_ball sd ball).current_batsmen
        = updated_batsmen ball sd.current_batsmen := by
      simp [apply_ball, hw]
    rw [hcb]
    exact find_batsman_updated_illegal ball hleg sd.current_batsmen hb

/-- C9 (witness): the amended statement at the concrete wide input. -/
theorem c9_wide_frame_witness :
    (apply_ball c9_doc c9_wide_ball).overs = c9_doc.overs
    ∧ (apply_ball c9_doc c9_wide_ball).score = c9_doc.score + 1
    ∧ ((apply_ball c9_doc c9_wide_ball).current_batsmen.find?
          (fun b => b.name == c9_wide_ball.batsman_name)).map Batsman.balls
        = (c9_doc.current_batsmen.find?
          (fun b => b.name == c9_wide_ball.batsman_name)).map Batsman.balls :=
  c9_wide_frame c9_doc c9_wide_ball rfl rfl rfl (by decide)

/-! Section: facts about the `update_score` dict loop. -/

/-- Overwriting a value in place never changes the key sequence. -/
lemma dict_set_keys {V : Type} (d : List (String × V)) (k : String) (v : V) :
    (dict_set d k v).map Prod.fst = d.map Prod.fst := by
  induction d with
  | nil => rfl
  | cons p rest ih =>
    by_cases h : p.1 = k <;> simp [dict_set, h] <;> simpa [dict_set] using ih

/-- Looking up one key after a cons. -/
lemma dict_lookup_cons {V : Type} (q : String × V) (t : List (String × V))
    (k : String) :
    dict_lookup (q :: t) k
      = if q.1 == k then some q.2 else dict_lookup t k := by
  cases hqk : q.1 == k <;> simp [dict_lookup, List.find?, hqk]

/-- Overwriting the value at `k` leaves lookups of other keys alone. -/
lemma dict_lookup_set_ne {V : Type} (d : List (String × V)) (k k' : String)
    (v : V) (h : k' ≠ k) :
    dict_lookup (dict_set d k v) k' = dict_lookup d k' := by
  induction d with
  | nil => rfl
  | cons p rest ih =>
    have hstep : dict_set (p :: rest) k v
        = (if p.1 == k then (k, v) else p) :: dict_set rest k v := rfl
    rw [hstep, dict_lookup_cons, dict_lookup_cons p rest k']
    cases hpk : p.1 == k
    · simp only [hpk, Bool.false_eq_true, if_false]
      rw [ih]
    · have hk : (k == k') = false := by
        simp
        exact fun e => h e.symm
      have hp : (p.1 == k') = false := by
        have : p.1 = k := by simpa using hpk
        rw [this]
        exact hk
      simp only [hpk, if_true, hk, hp, Bool.false_eq_true, if_false]
      rw [ih]

/-- Membership of a key depends only on the key sequence. -/
lemma dict_contains_eq_keys {V : Type} (d : List (String × V)) (k : String) :
    dict_contains d k = (d.map Prod.fst).any (fun s => s == k) := by
  induction d with
  | nil => rfl
  | cons p rest ih =>
    simp only [dict_contains, List.any_cons, List.map_cons] at ih ⊢
    rw [ih]

/-- A key the dict does not hold looks up to nothing. -/
lemma dict_lookup_none {V : Type} (d : List (String × V)) (k : String)
    (h : dict_contains d k = false) : dict_lookup d k = none := by
  induction d with
  | nil => rfl
  | cons p rest ih =>
    rw [dict_contains, List.any_cons, Bool.or_eq_false_iff] at h
    rw [dict_lookup_cons, if_neg, ih]
    · rw [dict_contains]
      exact h.2
    · simp [h.1]

/-- The update loop preserves the key sequence of the document. -/
lemma update_score_doc_keys {V : Type} (updates : List (String × V)) :
    ∀ doc : List (String × V),
      (update_score_doc doc updates).map Prod.fst = doc.map Prod.fst := by
  induction updates with
  | nil => intro doc; rfl
  | cons kv rest ih =>
    intro doc
    have hstep : update_score_doc doc (kv :: rest)
        = update_score_doc
            (if dict_contains doc kv.1 then dict_set doc kv.1 kv.2 else doc)
            rest := rfl
    rw [hstep]
    by_cases h : dict_contains doc kv.1 = true
    · simp only [h, if_true]
      rw [ih, dict_set_keys]
    · simp only [h, if_false]
      exact ih doc

/-- A key absent from `updates` keeps its value through the update loop. -/
lemma update_score_doc_lookup_skipped {V : Type}
    (updates : List (String × V)) (k : String) :
    dict_contains updates k = false →
    ∀ doc, dict_lookup (update_score_doc doc updates) k = dict_lookup doc k := by
  induction updates with
  | nil => intro _ doc; rfl
  | cons kv rest ih =>
    intro h doc
    rw [dict_contains, List.any_cons, Bool.or_eq_false_iff] at h
    have hne : k ≠ kv.1 := by
      intro e
      rw [e] at h
      simp at h
    have hstep : update_score_doc doc (kv :: rest)
        = update_score_doc
            (if dict_contains doc kv.1 then dict_set doc kv.1 kv.2 else doc)
            rest := rfl
    rw [hstep, ih h.2]
    cases hc : dict_contains doc kv.1
    · simp only [hc, Bool.false_eq_true, if_false]
    · simp only [hc, if_true]
      exact dict_lookup_set_ne doc kv.1 k kv.2 hne

/-- C10 (confirmed).  On an initialized document, `update_score` commits
exactly the key-filtered overwrite and touches no other column of the row
(the equality of rows pins `id`, team ids and `status`); the key sequence
of the document is unchanged, so keys of `updates` that were absent are
never added; and a key absent from `updates` keeps its value. -/
theorem c10_update_score_frame {V : Type} (m : MatchRow V)
    (updates doc : List (String × V)) (hsd : m.score_data = some doc) :
    update_score m updates
        = some { m with score_data := some (update_score_doc doc updates) }
    ∧ (update_score_doc doc updates).map Prod.fst = doc.map Prod.fst
    ∧ (∀ k, dict_contains doc k = false →
        dict_lookup (update_score_doc doc updates) k = none)
    ∧ (∀ k, dict_contains updates k = false →
        dict_lookup (update_score_doc doc updates) k = dict_lookup doc k) := by
  refine ⟨?_, update_score_doc_keys updates doc, ?_, ?_⟩
  · unfold update_score
    rw [hsd]
  · intro k hk
    apply dict_lookup_none
    rw [dict_contains_eq_keys, update_score_doc_keys, ← dict_contains_eq_keys]
    exact hk
  · intro k hk
    exact update_score_doc_lookup_skipped updates k hk doc

/-- Concrete inputs for the `update_score` claim: a document with keys
`score` and `wickets`, and an update naming `score` and an absent key. -/
def c10_doc : List (String × Nat) := [("score", 3), ("wickets", 1)]

def c10_row : MatchRow Nat :=
  ⟨3, 1, 1, 2, MatchStatus.inProgress, some c10_doc⟩

def c10_updates : List (String × Nat) := [("score", 7), ("bogus", 9)]

/-- C10 (witness): the frame statement at the concrete row. -/
theorem c10_update_score_frame_witness :
    update_score c10_row c10_updates
        = some { c10_row with
                 score_data := some (update_score_doc c10_doc c10_updates) }
    ∧ dict_lookup (update_score_doc c10_doc c10_updates) "bogus" = none
    ∧ dict_lookup (update_score_doc c10_doc c10_updates) "wickets" = some 1 :=
  have h := c10_update_score_frame c10_row c10_updates c10_doc rfl
  ⟨h.1, h.2.2.1 "bogus" (by decide),
    (h.2.2.2 "wickets" (by decide)).trans (by decide)⟩

/-! Section: the broadcast fanout. -/

/-- The broadcast pass over a stored connection list whose sends fail at
exactly one connection `f`, leaving the two survivors `ca, cb` in order:
the payload reaches `[ca, cb]`, the topic keeps exactly the survivors,
every other topic is untouched, no topic maps to an empty list, and the
topic key disappears exactly with the last disconnect. -/
lemma broadcast_one_fail (reg : Registry) (fails : Nat → Bool)
    (mid f ca cb : Nat) (conns : List Nat)
    (hreg : reg (manager_channel mid) = some conns)
    (hdelv : conns.filter (fun ws => !(fails ws)) = [ca, cb])
    (hfaild : conns.filter (fun ws => fails ws) = [f])
    (hmem : f ∈ conns)
    (herase : conns.erase f = [ca, cb])
    (hne : ∀ s l, reg s = some l → l ≠ []) :
    (broadcast_to_match fails reg mid).1 = [ca, cb]
    ∧ (broadcast_to_match fails reg mid).2 (manager_channel mid)
        = some [ca, cb]
    ∧ (∀ s, s ≠ manager_channel mid →
        (broadcast_to_match fails reg mid).2 s = reg s)
    ∧ (∀ s l, (broadcast_to_match fails reg mid).2 s = some l → l ≠ [])
    ∧ disconnect ((broadcast_to_match fails reg mid).2) ca mid
        (manager_channel mid) = some [cb]
    ∧ disconnect (disconnect ((broadcast_to_match fails reg mid).2) ca mid)
        cb mid (manager_channel mid) = none := by
  have hd : disconnect reg f mid
      = fun s => if s = manager_channel mid then some [ca, cb] else reg s := by
    unfold disconnect
    dsimp only
    rw [hreg]
    simp [hmem, herase]
  have hb : broadcast_to_match fails reg mid
      = ([ca, cb], disconnect reg f mid) := by
    unfold broadcast_to_match
    dsimp only
    rw [hreg]
    dsimp only
    rw [hdelv, hfaild]
    simp [List.foldl]
  have hch : (broadcast_to_match fails reg mid).2 (manager_channel mid)
      = some [ca, cb] := by
    rw [hb]
    dsimp only
    rw [hd]
    simp
  have h5 : disconnect ((broadcast_to_match fails reg mid).2) ca mid
      = fun s => if s = manager_channel mid then some [cb]
                 else (broadcast_to_match fails reg mid).2 s := by
    unfold disconnect
    dsimp only
    rw [hch]
    simp [List.erase_cons]
  refine ⟨by rw [hb], hch, ?_, ?_, ?_, ?_⟩
  · intro s hs
    rw [hb]
    dsimp only
    rw [hd]
    simp [hs]
  · intro s l hl
    rw [hb] at hl
    dsimp only at hl
    rw [hd] at hl
    dsimp only at hl
    by_cases hs : s = manager_channel mid
    · rw [if_pos hs] at hl
      cases hl
      simp
    · rw [if_neg hs] at hl
      exact hne s l hl
  · rw [h5]
    simp
  · rw [h5]
    unfold disconnect
    dsimp only
    simp [List.erase_cons]

/-- C5 (confirmed).  For every registry with three distinct connections
`[c1, c2, c3]` filed under a match topic, whichever single one of them
fails (`f` the failing connection, `ca, cb` the two survivors in stored
order), `broadcast_to_match` delivers the payload to the two survivors,
then removes the failing connection but keeps the topic entry with the two
survivors; every other topic is untouched; no topic of the resulting
registry maps to an empty list; and the topic key disappears exactly with
the last connection: after also disconnecting the first survivor the entry
still exists, and disconnecting the final one deletes the key. -/
theorem c5_broadcast_failure_isolation (reg : Registry) (fails : Nat → Bool)
    (mid c1 c2 c3 f ca cb : Nat)
    (hreg : reg (manager_channel mid) = some [c1, c2, c3])
    (h12 : c1 ≠ c2) (h13 : c1 ≠ c3) (h23 : c2 ≠ c3)
    (harr : (f = c1 ∧ ca = c2 ∧ cb = c3) ∨ (f = c2 ∧ ca = c1 ∧ cb = c3)
            ∨ (f = c3 ∧ ca = c1 ∧ cb = c2))
    (hf : fails f = true) (hca : fails ca = false) (hcb : fails cb = false)
    (hne : ∀ s l, reg s = some l → l ≠ []) :
    (broadcast_to_match fails reg mid).1 = [ca, cb]
    ∧ (broadcast_to_match fails reg mid).2 (manager_channel mid)
        = some [ca, cb]
    ∧ (∀ s, s ≠ manager_channel mid →
        (broadcast_to_match fails reg mid).2 s = reg s)
    ∧ (∀ s l, (broadcast_to_match fails reg mid).2 s = some l → l ≠ [])
    ∧ disconnect ((broadcast_to_match fails reg mid).2) ca mid
        (manager_channel mid) = some [cb]
    ∧ disconnect (disconnect ((broadcast_to_match fails reg mid).2) ca mid)
        cb mid (manager_channel mid) = none := by
  rcases harr with ⟨h1, h2, h3⟩ | ⟨h1, h2, h3⟩ | ⟨h1, h2, h3⟩ <;>
    subst h1 <;> subst h2 <;> subst h3
  · exact broadcast_one_fail reg fails mid f ca cb [f, ca, cb] hreg
      (by simp [List.filter, hf, hca, hcb])
      (by simp [List.filter, hf, hca, hcb])
      (by simp)
      (by rw [List.erase_cons, if_pos (by simp)])
      hne
  · exact broadcast_one_fail reg fails mid f ca cb [ca, f, cb] hreg
      (by simp [List.filter, hf, hca, hcb])
      (by simp [List.filter, hf, hca, hcb])
      (by simp)
      (by rw [List.erase_cons, if_neg (by simp [h12]), List.erase_cons,
          if_pos (by simp)])
      hne
  · exact broadcast_one_fail reg fails mid f ca cb [ca, cb, f] hreg
      (by simp [List.filter, hf, hca, hcb])
      (by simp [List.filter, hf, hca, hcb])
      (by simp)
      (by rw [List.erase_cons, if_neg (by simp [h13]), List.erase_cons,
          if_neg (by simp [h23]), List.erase_cons, if_pos (by simp)])
      hne

/-- Concrete inputs for the broadcast claim: three connections on the
topic of match 7, connection 2 failing. -/
def c5_reg : Registry :=
  fun s => if s = manager_channel 7 then some [1, 2, 3] else none

def c5_fails : Nat → Bool := fun ws => ws == 2

/-- C5 (witness): the broadcast statement at the concrete registry. -/
theorem c5_broadcast_failure_isolation_witness :
    (broadcast_to_match c5_fails c5_reg 7).1 = [1, 3]
    ∧ (broadcast_to_match c5_fails c5_reg 7).2 (manager_channel 7)
        = some [1, 3]
    ∧ disconnect (disconnect ((broadcast_to_match c5_fails c5_reg 7).2) 1 7)
        3 7 (manager_channel 7) = none :=
  have h := c5_broadcast_failure_isolation c5_reg c5_fails 7 1 2 3 2 1 3
    (by simp [c5_reg]) (by decide) (by decide) (by decide)
    (Or.inr (Or.inl ⟨rfl, rfl, rfl⟩))
    (by decide) (by decide) (by decide)
    (by
      intro s l hl
      unfold c5_reg at hl
      by_cases hs : s = manager_channel 7
      · rw [if_pos hs] at hl
        cases hl
        simp
      · rw [if_neg hs] at hl
        cases hl)
  ⟨h.1, h.2.1, h.2.2.2.2.2⟩

/-! Section: facts about channel names and their parsing. -/

/-- Digit characters pass the digit test. -/
lemma is_digit_char_digit_char (d : Nat) :
    is_digit_char (digit_char d) = true := by
  unfold digit_char
  split <;> decide

/-- Below ten, the digit character decodes back to its value. -/
lemma char_digit_val_digit_char (d : Nat) (h : d < 10) :
    char_digit_val (digit_char d) = d := by
  unfold digit_char
  interval_cases d <;> decide

/-- A digit character is not a colon. -/
lemma digit_not_colon (c : Char) (h : is_digit_char c = true) :
    (c == ':') = false := by
  cases hc : c == ':'
  · rfl
  · have hcc : c = ':' := eq_of_beq hc
    rw [hcc] at h
    exact absurd h (by decide)

/-- Every character the digit peeling produces is a digit. -/
lemma nat_repr_go_digits :
    ∀ fuel n, ∀ c ∈ nat_repr_go fuel n, is_digit_char c = true := by
  intro fuel
  induction fuel with
  | zero =>
    intro n c hc
    simp only [nat_repr_go, List.mem_singleton] at hc
    rw [hc]
    exact is_digit_char_digit_char n
  | succ fuel ih =>
    intro n c hc
    rw [nat_repr_go] at hc
    by_cases h : n < 10
    · rw [if_pos h, List.mem_singleton] at hc
      rw [hc]
      exact is_digit_char_digit_char n
    · rw [if_neg h, List.mem_append] at hc
      rcases hc with hc | hc
      · exact ih _ c hc
      · rw [List.mem_singleton] at hc
        rw [hc]
        exact is_digit_char_digit_char (n % 10)

/-- The digit peeling never returns the empty string. -/
lemma nat_repr_go_ne_nil (fuel n : Nat) : nat_repr_go fuel n ≠ [] := by
  cases fuel with
  | zero => simp [nat_repr_go]
  | succ fuel =>
    rw [nat_repr_go]
    by_cases h : n < 10 <;> simp [h]

/-- Folding the decimal accumulator over the digits of `n` recovers `n`,
shifted by the accumulator. -/
lemma nat_repr_go_foldl :
    ∀ fuel n, n ≤ fuel → ∀ acc : Nat,
      (nat_repr_go fuel n).foldl (fun a c => 10 * a + char_digit_val c) acc
        = acc * 10 ^ (nat_repr_go fuel n).length + n := by
  intro fuel
  induction fuel with
  | zero =>
    intro n hn acc
    have hz : n = 0 := Nat.le_zero.mp hn
    subst hz
    simp [nat_repr_go, char_digit_val_digit_char 0 (by omega)]
    omega
  | succ fuel ih =>
    intro n hn acc
    by_cases h : n < 10
    · rw [nat_repr_go, if_pos h]
      simp [char_digit_val_digit_char n h]
      omega
    · have hrec : n / 10 ≤ fuel := by
        have := Nat.div_lt_self (by omega : 0 < n) (by omega : 1 < 10)
        omega
      rw [nat_repr_go, if_neg h, List.foldl_append, List.length_append]
      simp only [List.foldl_cons, List.foldl_nil, List.length_cons,
        List.length_nil, Nat.zero_add]
      rw [ih (n / 10) hrec acc, char_digit_val_digit_char (n % 10) (by omega),
        pow_succ]
      generalize 10 ^ (nat_repr_go fuel (n / 10)).length = K
      have h2 : 10 * (n / 10) + n % 10 = n := Nat.div_add_mod n 10
      calc 10 * (acc * K + n / 10) + n % 10
          = acc * (K * 10) + (10 * (n / 10) + n % 10) := by ring
        _ = acc * (K * 10) + n := by rw [h2]

/-- Python `int` undoes the decimal representation. -/
lemma py_int_nat_repr (n : Nat) : py_int (nat_repr n) = some n := by
  unfold py_int nat_repr
  rw [if_pos ⟨nat_repr_go_ne_nil n n,
      List.all_eq_true.mpr (fun c hc => nat_repr_go_digits n n c hc)⟩]
  rw [nat_repr_go_foldl n n (Nat.le_refl n) 0]
  simp

/-- A scan that meets no separator head returns the one remaining piece. -/
lemma split_go_no_sep (c0 : Char) (stail : List Char) :
    ∀ fuel (l acc : List Char), l.length ≤ fuel →
      (∀ c ∈ l, (c == c0) = false) →
      split_go c0 stail fuel l acc = [acc.reverse ++ l] := by
  intro fuel
  induction fuel with
  | zero =>
    intro l acc hlen h
    have hnil : l = [] := List.length_eq_zero.mp (Nat.le_zero.mp hlen)
    subst hnil
    simp [split_go]
  | succ fuel ih =>
    intro l acc hlen h
    cases l with
    | nil => simp [split_go]
    | cons c rest =>
      have hc := h c (List.mem_cons_self c rest)
      rw [split_go]
      simp only [hc, Bool.false_and, Bool.false_eq_true, if_false]
      rw [ih rest (c :: acc) (by simp at hlen; omega)
          (fun x hx => h x (List.mem_cons_of_mem c hx))]
      simp

/-- One scan step over a character that does not open the separator. -/
lemma split_go_skip (c0 : Char) (stail : List Char) (c : Char)
    (hc : (c == c0) = false) (fuel : Nat) (rest acc : List Char) :
    split_go c0 stail (fuel + 1) (c :: rest) acc
      = split_go c0 stail fuel rest (c :: acc) := by
  rw [split_go]
  simp only [hc, Bool.false_and, Bool.false_eq_true, if_false]

/-- The scan step over the separator ": " cuts the piece. -/
lemma split_go_cut (fuel : Nat) (rest acc : List Char) :
    split_go ':' [' '] (fuel + 1) (':' :: ' ' :: rest) acc
      = acc.reverse :: split_go ':' [' '] fuel rest [] := by
  rw [split_go]
  simp [starts_with]

/-- Splitting a "match: " channel on ": " yields the prefix and the digits,
whenever the payload has no colon in it. -/
lemma py_split_channel (D : List Char)
    (hD : ∀ c ∈ D, (c == ':') = false) :
    py_split ": ".toList ("match: ".toList ++ D) = ["match".toList, D] := by
  have hlen : ("match: ".toList ++ D).length
      = ((((((D.length + 1) + 1) + 1) + 1) + 1) + 1) + 1 := by
    simp [List.length_append]
  show split_go ':' [' '] (("match: ".toList ++ D).length)
      ('m' :: 'a' :: 't' :: 'c' :: 'h' :: ':' :: ' ' :: D) [] = _
  rw [hlen, split_go_skip _ _ _ (by decide), split_go_skip _ _ _ (by decide),
    split_go_skip _ _ _ (by decide), split_go_skip _ _ _ (by decide),
    split_go_skip _ _ _ (by decide), split_go_cut,
    split_go_no_sep ':' [' '] (D.length + 1) D [] (by omega) hD]
  simp

/-- C6 (confirmed).  The publisher and the connection registry build the
very same channel characters for a match id, and the subscriber parse
(`int` of piece 1 of the split on ": ") recovers the id from the channel
the publisher produced. -/
theorem c6_topic_key_round_trip (n : Nat) :
    publisher_channel n = registry_channel_chars n
    ∧ parse_match_id (publisher_channel n) = some n := by
  constructor
  · rfl
  · unfold parse_match_id publisher_channel
    rw [py_split_channel (nat_repr n)
        (fun c hc => digit_not_colon c (nat_repr_go_digits n n c hc))]
    simp only [List.drop_succ_cons, List.drop_zero]
    exact py_int_nat_repr n

end PitchPulse
